import Mathlib

/-!
# shella: command dispatch and shell lifecycle

A shallow embedding of `shell.go` (package `shella`) and theorems about it.

Conventions of the embedding

* A Go `string` is a Lean `String`.  The only bytes the code looks for are
  `"\n"` and `" "`, both single characters.
* The three `strings` library calls of the source (`Replace`, `Split`, `Join`)
  are modelled after the Go standard library (`stringsReplace`,
  `stringsSplit`, `stringsJoin`).
* A value of a Go function type is `nil`, one of the two built-in functions of
  the package, or a closure supplied by the embedding application.  Closures
  are named by natural numbers and their behaviour is given by an `Env`.
* Every Go statement that calls a function value, reads a line or creates the
  line source appends one `Event` to the `trace` of the `Machine`.  Closures
  work on the `World` only, so the trace lists exactly the calls made by the
  body of the operation under study, oldest first.
* Code that may not return (`os.Exit`, `log.Fatal`, a run-time panic, a
  closure that never returns) yields `Result.stop`.
* The heap holds one `Shell`; `self` is its address, the value stored in
  `Context.Shell`.
-/

namespace Shella

/-! ## Go standard library: `strings.Replace`, `strings.Split`, `strings.Join` -/

/-- Go `strings.Replace` with an empty `old`: `new` is inserted before each of the
first `n` characters, and after the last one when replacements are left. -/
def replaceEmpty (new : List Char) : Nat → List Char → List Char
  | 0, cs => cs
  | _ + 1, [] => new
  | n + 1, c :: cs => new ++ c :: replaceEmpty new n cs

/-- Left-to-right scan of `strings.Replace` for a non-empty `old`.  `skip` is
the number of characters of the match just found that are still to be dropped,
`n` the number of replacements left. -/
def replaceScan (old new : List Char) : Nat → Nat → List Char → List Char
  | _, _, [] => []
  | skip + 1, n, _ :: cs => replaceScan old new skip n cs
  | 0, 0, c :: cs => c :: replaceScan old new 0 0 cs
  | 0, n + 1, c :: cs =>
      if old.isPrefixOf (c :: cs) then new ++ replaceScan old new (old.length - 1) n cs
      else c :: replaceScan old new 0 (n + 1) cs

/-- Go `strings.Replace(s, old, new, n)`: the first `n` non-overlapping
instances of `old` replaced by `new`; no limit when `n < 0`. -/
def stringsReplace (s old new : String) (n : Int) : String :=
  if old = new ∨ n = 0 then s
  else if old.data = [] then
    ⟨replaceEmpty new.data (if n < 0 then s.data.length + 1 else n.toNat) s.data⟩
  else
    ⟨replaceScan old.data new.data 0 (if n < 0 then s.data.length + 1 else n.toNat) s.data⟩

/-- Left-to-right scan of `strings.Split` for a non-empty separator; `skip` as
in `replaceScan`.  The result always has a last piece, possibly empty. -/
def splitScan (sep : List Char) : Nat → List Char → List (List Char)
  | _, [] => [[]]
  | skip + 1, _ :: cs => splitScan sep skip cs
  | 0, c :: cs =>
      if sep.isPrefixOf (c :: cs) then [] :: splitScan sep (sep.length - 1) cs
      else
        match splitScan sep 0 cs with
        | [] => [[c]]
        | t :: ts => (c :: t) :: ts

/-- Go `strings.Split(s, sep)`: the substrings between the instances of `sep`;
with an empty `sep` the string is cut after every character. -/
def stringsSplit (s sep : String) : List String :=
  if sep.data = [] then s.data.map String.singleton
  else (splitScan sep.data 0 s.data).map String.mk

/-- Go `strings.Join(elems, sep)`. -/
def stringsJoin : List String → String → String
  | [], _ => ""
  | [a], _ => a
  | a :: b :: rest, sep => a ++ sep ++ stringsJoin (b :: rest) sep

/-! ## Data model (`shell.go`, lines 13-31) -/

/-- Go `error` values, as far as the core tells them apart. -/
inductive GoError where
  /-- the sentinel `readline.ErrInterrupt` -/
  | ErrInterrupt
  /-- the sentinel `io.EOF` -/
  | EOF
  /-- any other error -/
  | other (msg : String)
  deriving DecidableEq, Repr

/-- Go `type Context struct`; `Shell` is the address of the owning shell. -/
structure Context where
  Input : String
  Args : List String
  Shell : Nat
  deriving DecidableEq, Repr

/-- Values of the Go type `func(*Context)`. -/
inductive HandlerFn where
  | nil
  /-- the package function `defaultHandler` -/
  | defaultHandler
  /-- a function of the embedding application -/
  | closure (id : Nat)
  deriving DecidableEq, Repr

/-- Values of the Go type `func()`. -/
inductive InterruptFn where
  | nil
  /-- the package function `defaultInterrupt` -/
  | defaultInterrupt
  /-- a function of the embedding application -/
  | closure (id : Nat)
  deriving DecidableEq, Repr

/-- Go `type Cmd struct`. -/
structure Cmd where
  Name : String
  Help : String
  Handler : HandlerFn
  deriving DecidableEq, Repr

/-- The fields of `readline.Config` that the package sets. -/
structure Config where
  Prompt : String
  HistoryFile : String
  InterruptPrompt : String
  EOFPrompt : String
  HistorySearchFold : Bool
  deriving DecidableEq, Repr

/-- A `*readline.Instance`: it remembers the configuration given to `NewEx`. -/
structure Instance where
  Config : Config
  deriving DecidableEq, Repr

/-- Go `type Shell struct`.  An entry of `Cmds` is a `*Cmd`: `none` is the nil
pointer; `reader` is nil until `Run` creates the line source. -/
structure Shell where
  handler : HandlerFn
  interrupt : InterruptFn
  Cmds : List (Option Cmd)
  reader : Option Instance
  readlinecfg : Config
  deriving DecidableEq, Repr

/-! ## Execution model -/

/-- One observable step of the core. -/
inductive Event where
  /-- line 150: `readline.NewEx(&s.readlinecfg)` with this configuration -/
  | newEx (cfg : Config)
  /-- line 109: `s.reader.Readline()` returned `(inp, err)` -/
  | readline (inp : String) (err : Option GoError)
  /-- lines 112 and 137: `s.interrupt()` -/
  | callInterrupt (f : InterruptFn)
  /-- line 127: `command.Handler(ctx)` for the registry entry at position `idx` -/
  | callCommand (idx : Nat) (f : HandlerFn) (ctx : Context)
  /-- lines 131 and 141: `s.handler(ctx)` -/
  | callHandler (f : HandlerFn) (ctx : Context)
  deriving DecidableEq, Repr

/-- Why a piece of code did not return to its caller. -/
inductive Stop where
  /-- the process ended by `os.Exit(code)` -/
  | osExit (code : Nat)
  /-- the process ended by `log.Fatal(e)`: the error is logged and the process exits with status 1 -/
  | fatal (e : GoError)
  /-- a run-time panic -/
  | goPanic (msg : String)
  /-- the callee never returns -/
  | hang
  deriving DecidableEq, Repr

/-- Result of running code from state `σ`: a normal return with a value, or a
stop; both carry the state reached. -/
inductive Result (σ α : Type) where
  | ret (a : α) (st : σ)
  | stop (why : Stop) (st : σ)
  deriving DecidableEq, Repr

/-- What closures can see and change: the shell and standard output. -/
structure World where
  shell : Shell
  stdout : String
  deriving DecidableEq, Repr

/-- The world together with the events of the core so far. -/
structure Machine where
  world : World
  trace : List Event
  deriving DecidableEq, Repr

/-- Behaviour of the embedding application and of the line-editing library. -/
structure Env where
  /-- body of the `func(*Context)` closure `id` -/
  handler : Nat → Context → World → Result World Unit
  /-- body of the `func()` closure `id` -/
  interrupt : Nat → World → Result World Unit
  /-- error returned by `readline.NewEx` for a configuration, `none` for nil -/
  newEx : Config → Option GoError

/-- The state carried by a result. -/
def Result.state {σ α : Type} : Result σ α → σ
  | .ret _ st => st
  | .stop _ st => st

/-- The value returned, if the code returned to its caller. -/
def Result.value? {σ α : Type} : Result σ α → Option α
  | .ret a _ => some a
  | .stop _ _ => none

/-- Whether the code returned to its caller. -/
def Result.returns {σ α : Type} : Result σ α → Bool
  | .ret _ _ => true
  | .stop _ _ => false

/-- The result of a closure, put back under the trace of the core. -/
def Result.withTrace {α : Type} (tr : List Event) : Result World α → Result Machine α
  | .ret a w => .ret a ⟨w, tr⟩
  | .stop y w => .stop y ⟨w, tr⟩

/-- Sequencing: run `k` when the first part returns. -/
def Result.andThen {σ α β : Type} (r : Result σ α) (k : α → σ → Result σ β) : Result σ β :=
  match r with
  | .ret a st => k a st
  | .stop y st => .stop y st

/-- Append an event to the trace. -/
def Machine.log (m : Machine) (e : Event) : Machine :=
  { m with trace := m.trace ++ [e] }

/-- Go `fmt.Println(line)`. -/
def Machine.println (m : Machine) (line : String) : Machine :=
  { m with world := { m.world with stdout := m.world.stdout ++ line ++ "\n" } }

/-- Replace the shell. -/
def Machine.setShell (m : Machine) (s : Shell) : Machine :=
  { m with world := { m.world with shell := s } }

/-- The events appended to `old` in `new`. -/
def eventsSince (old new : Machine) : List Event :=
  new.trace.drop old.trace.length

/-! ## The package (`shell.go`) -/

/-- Go `func (s *Shell) AddCmd(cmd *Cmd)`, lines 33-35. -/
def AddCmd (cmd : Option Cmd) (s : Shell) : Shell :=
  { s with Cmds := s.Cmds ++ [cmd] }

/-- Go `func New() *Shell`, lines 37-49. -/
def New : Shell :=
  { handler := .defaultHandler
    interrupt := .defaultInterrupt
    Cmds := []
    reader := none
    readlinecfg :=
      { Prompt := "\x1b[31m" ++ "→ " ++ "\x1b[0m"
        HistoryFile := ""
        InterruptPrompt := "^C"
        EOFPrompt := "exit"
        HistorySearchFold := true } }

/-- Go `func defaultInterrupt()`, lines 53-56. -/
def defaultInterrupt (m : Machine) : Result Machine Unit :=
  .stop (.osExit 0) (m.println "\rBye!")

/-- Go `func defaultHandler(c *Context)`, lines 58-60. -/
def defaultHandler (_c : Context) (m : Machine) : Result Machine Unit :=
  .ret () (m.println "Default handler must be replaced!")

/-- Calling a value of type `func(*Context)`. -/
def HandlerFn.call (env : Env) (f : HandlerFn) (ctx : Context) (m : Machine) :
    Result Machine Unit :=
  match f with
  | .nil => .stop (.goPanic "invalid memory address or nil pointer dereference") m
  | .defaultHandler => Shella.defaultHandler ctx m
  | .closure id => (env.handler id ctx m.world).withTrace m.trace

/-- Calling a value of type `func()`. -/
def InterruptFn.call (env : Env) (f : InterruptFn) (m : Machine) : Result Machine Unit :=
  match f with
  | .nil => .stop (.goPanic "invalid memory address or nil pointer dereference") m
  | .defaultInterrupt => Shella.defaultInterrupt m
  | .closure id => (env.interrupt id m.world).withTrace m.trace

/-- Go `func (s *Shell) SetHandler(f func(*Context))`, lines 64-66. -/
def SetHandler (f : HandlerFn) (s : Shell) : Shell :=
  { s with handler := f }

/-- Go `func (s *Shell) SetInterruptHandler(f func())`, lines 68-70. -/
def SetInterruptHandler (f : InterruptFn) (s : Shell) : Shell :=
  { s with interrupt := f }

/-- Go `func userHomeDir() string`, lines 86-100, with `runtime.GOOS` and
`os.Getenv` as inputs. -/
def userHomeDir (goos : String) (getenv : String → String) : String :=
  if goos = "windows" then
    let home := getenv "HOMEDRIVE" ++ getenv "HOMEPATH"
    if home = "" then getenv "USERPROFILE" else home
  else if goos = "linux" then
    let home := getenv "XDG_CONFIG_HOME"
    if home ≠ "" then home else getenv "HOME"
  else getenv "HOME"

/-- Go `func (s *Shell) SetHomeHistoryFile(p string)`, lines 72-74;
`fmt.Sprintf("%s/%s", a, b)` is `a ++ "/" ++ b`. -/
def SetHomeHistoryFile (goos : String) (getenv : String → String) (p : String) (s : Shell) :
    Shell :=
  { s with readlinecfg := { s.readlinecfg with HistoryFile := userHomeDir goos getenv ++ "/" ++ p } }

/-- Go `func (s *Shell) SetHistoryFile(p string)`, lines 76-78. -/
def SetHistoryFile (p : String) (s : Shell) : Shell :=
  { s with readlinecfg := { s.readlinecfg with HistoryFile := p } }

/-- Go `func (s *Shell) SetPrompt(p string)`, lines 80-82. -/
def SetPrompt (p : String) (s : Shell) : Shell :=
  { s with readlinecfg := { s.readlinecfg with Prompt := p } }

/-- Go `func checkErr(e error)`, lines 102-106. -/
def checkErr (e : Option GoError) (m : Machine) : Result Machine Unit :=
  match e with
  | some err => .stop (.fatal err) m
  | none => .ret () m

/-- The `&Context{...}` literal of `readline`, lines 117-121. -/
def readlineCtx (self : Nat) (inp : String) : Context :=
  { Input := stringsReplace inp "\n" "" (-1)
    Args := stringsSplit (stringsReplace inp "\n" "" (-1)) " "
    Shell := self }

/-- Go `func (s *Shell) readline() *Context`, lines 108-122; `(inp, err)` is what
`s.reader.Readline()` returns. -/
def readline (env : Env) (self : Nat) (inp : String) (err : Option GoError) (m : Machine) :
    Result Machine Context :=
  match m.world.shell.reader with
  | none => .stop (.goPanic "invalid memory address or nil pointer dereference") m
  | some _ =>
    let m1 := m.log (.readline inp err)
    let switch : Result Machine Unit :=
      match err with
      | some .ErrInterrupt =>
          (m1.world.shell.interrupt.call env (m1.log (.callInterrupt m1.world.shell.interrupt)))
      | _ => checkErr err m1
    switch.andThen fun _ m2 => .ret (readlineCtx self inp) m2

/-- The `for _, command := range s.Cmds` loop of `handle` followed by the call
of line 131; `idx` is the registry position of the head of the list. -/
def handleRange (env : Env) (ctx : Context) : Nat → List (Option Cmd) → Machine →
    Result Machine Unit
  | _, [], m => m.world.shell.handler.call env ctx (m.log (.callHandler m.world.shell.handler ctx))
  | idx, command :: rest, m =>
      match ctx.Args with
      | [] => .stop (.goPanic "index out of range [0] with length 0") m
      | a0 :: _ =>
        match command with
        | none => .stop (.goPanic "invalid memory address or nil pointer dereference") m
        | some c =>
          if a0 = c.Name then c.Handler.call env ctx (m.log (.callCommand idx c.Handler ctx))
          else handleRange env ctx (idx + 1) rest m

/-- Go `func (s *Shell) handle(ctx *Context)`, lines 124-132. -/
def handle (env : Env) (ctx : Context) (m : Machine) : Result Machine Unit :=
  handleRange env ctx 0 m.world.shell.Cmds m

/-- Go `func (s *Shell) Interrupt()`, lines 136-138. -/
def Interrupt (env : Env) (m : Machine) : Result Machine Unit :=
  m.world.shell.interrupt.call env (m.log (.callInterrupt m.world.shell.interrupt))

/-- The `&Context{...}` literal of `Process`, lines 141-145. -/
def processCtx (self : Nat) (args : List String) : Context :=
  { Input := stringsJoin args " "
    Args := args
    Shell := self }

/-- Go `func (s *Shell) Process(args ...string)`, lines 140-146. -/
def Process (env : Env) (self : Nat) (args : List String) (m : Machine) : Result Machine Unit :=
  m.world.shell.handler.call env (processCtx self args)
    (m.log (.callHandler m.world.shell.handler (processCtx self args)))

/-- One iteration of the loop of `Run`, line 154: `s.handle(s.readline())`,
for a read that returns `(inp, err)`. -/
def cycle (env : Env) (self : Nat) (inp : String) (err : Option GoError) (m : Machine) :
    Result Machine Unit :=
  (readline env self inp err m).andThen fun ctx m1 => handle env ctx m1

/-- The loop of `Run`, lines 153-155, over the reads the line source answers
one after the other.  `ret` means every given read was dispatched and the loop
is about to read again. -/
def runLoop (env : Env) (self : Nat) : List (String × Option GoError) → Machine →
    Result Machine Unit
  | [], m => .ret () m
  | (inp, err) :: rest, m =>
      (cycle env self inp err m).andThen fun _ m1 => runLoop env self rest m1

/-- Go `func (s *Shell) Run()`, lines 148-156. -/
def Run (env : Env) (self : Nat) (reads : List (String × Option GoError)) (m : Machine) :
    Result Machine Unit :=
  let cfg := m.world.shell.readlinecfg
  let m1 := m.log (.newEx cfg)
  match env.newEx cfg with
  | some e => .stop (.fatal e) (m1.setShell { m1.world.shell with reader := none })
  | none => runLoop env self reads (m1.setShell { m1.world.shell with reader := some ⟨cfg⟩ })

/-! ## Sample inputs -/

/-- An environment in which every closure returns at once and changes nothing,
and the line source starts without error. -/
def quietEnv : Env :=
  { handler := fun _ _ w => .ret () w
    interrupt := fun _ w => .ret () w
    newEx := fun _ => none }

/-- A machine running the shell `s`, with the line source created, an empty
standard output and an empty trace. -/
def started (s : Shell) : Machine :=
  { world := { shell := { s with reader := some ⟨s.readlinecfg⟩ }, stdout := "" }
    trace := [] }

/-- Two commands named `echo`, registered in this order, on a fresh shell. -/
def twoEchoShell : Shell :=
  AddCmd (some ⟨"echo", "second", .closure 2⟩) (AddCmd (some ⟨"echo", "first", .closure 1⟩) New)

/-- One command named `echo` on a fresh shell. -/
def oneEchoShell : Shell :=
  AddCmd (some ⟨"echo", "print the arguments", .closure 1⟩) New

/-- An environment in which no variable is set: every `os.Getenv` gives the
empty string. -/
def noEnvVars : String → String :=
  fun _ => ""

/-- Two calls `Process(args...)` in a row; the second takes place when the
first returns. -/
def processTwice (env : Env) (self : Nat) (args : List String) (m : Machine) :
    Result Machine Unit :=
  (Process env self args m).andThen fun _ m1 => Process env self args m1

/-- The first token of a line: the part before its first space, the whole line
when it has no space. -/
def firstToken (line : String) : String :=
  ⟨line.data.takeWhile (fun c => c != ' ')⟩

/-! ## Lemmas on the execution model -/

theorem log_trace (m : Machine) (e : Event) : (m.log e).trace = m.trace ++ [e] := rfl

theorem log_world (m : Machine) (e : Event) : (m.log e).world = m.world := rfl

theorem eventsSince_of_trace (old new : Machine) (l : List Event)
    (h : new.trace = old.trace ++ l) : eventsSince old new = l := by
  simp [eventsSince, h]

theorem handlerCall_trace (env : Env) (f : HandlerFn) (ctx : Context) (m : Machine) :
    (f.call env ctx m).state.trace = m.trace := by
  cases f with
  | nil => rfl
  | defaultHandler => rfl
  | closure id =>
    simp only [HandlerFn.call]
    cases env.handler id ctx m.world <;> rfl

theorem interruptCall_trace (env : Env) (f : InterruptFn) (m : Machine) :
    (f.call env m).state.trace = m.trace := by
  cases f with
  | nil => rfl
  | defaultInterrupt => rfl
  | closure id =>
    simp only [InterruptFn.call]
    cases env.interrupt id m.world <;> rfl

/-- Entries whose name differs from the first argument are passed over. -/
theorem handleRange_skip (env : Env) (ctx : Context) (a0 : String) (tl : List String)
    (hargs : ctx.Args = a0 :: tl) (pre : List Cmd) (rest : List (Option Cmd)) (m : Machine)
    (hpre : ∀ x ∈ pre, x.Name ≠ a0) (idx : Nat) :
    handleRange env ctx idx (pre.map some ++ rest) m
      = handleRange env ctx (idx + pre.length) rest m := by
  induction pre generalizing idx with
  | nil => simp
  | cons x xs ih =>
    have hx : ¬ a0 = x.Name := fun h => hpre x (List.mem_cons_self _ _) h.symm
    have hxs : ∀ y ∈ xs, y.Name ≠ a0 := fun y hy => hpre y (List.mem_cons_of_mem _ hy)
    have step : handleRange env ctx idx (some x :: (xs.map some ++ rest)) m
        = handleRange env ctx (idx + 1) (xs.map some ++ rest) m := by
      simp only [handleRange, hargs, hx, if_false]
    rw [List.map_cons, List.cons_append, step, ih hxs (idx + 1), List.length_cons]
    congr 1
    omega

/-- A list with an element of a given name splits at the first such element. -/
theorem exists_first_named (a0 : String) (cmds : List Cmd) (h : ∃ c ∈ cmds, c.Name = a0) :
    ∃ pre c post, cmds = pre ++ c :: post ∧ (∀ x ∈ pre, x.Name ≠ a0) ∧ c.Name = a0 := by
  induction cmds with
  | nil => simp at h
  | cons x xs ih =>
    by_cases hx : x.Name = a0
    · exact ⟨[], x, xs, rfl, by simp, hx⟩
    · have h2 : ∃ c ∈ xs, c.Name = a0 := by
        obtain ⟨c, hc, hn⟩ := h
        rcases List.mem_cons.mp hc with rfl | hc
        · exact absurd hn hx
        · exact ⟨c, hc, hn⟩
      obtain ⟨pre, c, post, he, hp, hc⟩ := ih h2
      refine ⟨x :: pre, c, post, by simp [he], ?_, hc⟩
      intro y hy
      rcases List.mem_cons.mp hy with rfl | hy
      · exact hx
      · exact hp y hy

/-- Dispatch when the first entry named like the first argument is `c`. -/
theorem handle_at_first (env : Env) (m : Machine) (ctx : Context) (a0 : String)
    (tl : List String) (pre : List Cmd) (c : Cmd) (post : List (Option Cmd))
    (hargs : ctx.Args = a0 :: tl)
    (hcmds : m.world.shell.Cmds = pre.map some ++ some c :: post)
    (hpre : ∀ x ∈ pre, x.Name ≠ a0) (hc : c.Name = a0) :
    handle env ctx m = c.Handler.call env ctx (m.log (.callCommand pre.length c.Handler ctx)) := by
  unfold handle
  rw [hcmds, handleRange_skip env ctx a0 tl hargs pre _ m hpre 0]
  simp [handleRange, hargs, hc]

/-- Dispatch when no entry is named like the first argument. -/
theorem handle_at_none (env : Env) (m : Machine) (ctx : Context) (a0 : String)
    (tl : List String) (cmds : List Cmd)
    (hargs : ctx.Args = a0 :: tl)
    (hcmds : m.world.shell.Cmds = cmds.map some)
    (hno : ∀ x ∈ cmds, x.Name ≠ a0) :
    handle env ctx m
      = m.world.shell.handler.call env ctx (m.log (.callHandler m.world.shell.handler ctx)) := by
  unfold handle
  have h := handleRange_skip env ctx a0 tl hargs cmds [] m hno 0
  rw [List.append_nil] at h
  rw [hcmds, h]
  simp [handleRange]

/-! ## Lemmas on the string functions -/

theorem replaceScan_newline (cs : List Char) :
    ∀ n, cs.length < n → replaceScan ['\n'] [] 0 n cs = cs.filter (fun c => c != '\n') := by
  induction cs with
  | nil => intro n _; cases n <;> rfl
  | cons c cs ih =>
    intro n hn
    cases n with
    | zero => simp at hn
    | succ k =>
      have hk : cs.length < k := by simpa using hn
      by_cases hc : c = '\n'
      · subst hc
        simp [replaceScan, List.isPrefixOf, ih k hk]
      · have hc2 : ¬ '\n' = c := fun h => hc h.symm
        simp [replaceScan, List.isPrefixOf, hc, hc2, ih (k + 1) (Nat.lt_succ_of_lt hk)]

theorem stringsReplace_newline (inp : String) :
    (stringsReplace inp "\n" "" (-1)).data = inp.data.filter (fun c => c != '\n') := by
  have h1 : ¬ (("\n" : String) = "" ∨ (-1 : Int) = 0) := by decide
  have h2 : ¬ (("\n" : String).data = []) := by decide
  have h3 : ((-1 : Int) < 0) := by decide
  have h4 : ("\n" : String).data = ['\n'] := rfl
  have h5 : ("" : String).data = [] := rfl
  unfold stringsReplace
  rw [if_neg h1, if_neg h2, if_pos h3, h4, h5]
  exact replaceScan_newline inp.data _ (Nat.lt_succ_self _)

theorem splitScan_ne_nil (sep : List Char) (cs : List Char) :
    ∀ skip, splitScan sep skip cs ≠ [] := by
  induction cs with
  | nil => intro skip; cases skip <;> simp [splitScan]
  | cons c cs ih =>
    intro skip
    cases skip with
    | succ k => simpa [splitScan] using ih k
    | zero =>
      unfold splitScan
      split
      · simp
      · split <;> simp

theorem splitScan_space_cons (c : Char) (cs : List Char) :
    splitScan [' '] 0 (c :: cs)
      = if c = ' ' then [] :: splitScan [' '] 0 cs
        else match splitScan [' '] 0 cs with
          | [] => [[c]]
          | t :: ts => (c :: t) :: ts := by
  by_cases hc : c = ' '
  · subst hc
    simp [splitScan, List.isPrefixOf]
  · have hc2 : ¬ ' ' = c := fun h => hc h.symm
    simp [splitScan, List.isPrefixOf, hc, hc2]

theorem splitScan_space_no_space (cs : List Char) :
    ∀ t ∈ splitScan [' '] 0 cs, ' ' ∉ t := by
  induction cs with
  | nil => simp [splitScan]
  | cons c cs ih =>
    rw [splitScan_space_cons]
    by_cases hc : c = ' '
    · simp only [hc, if_true]
      intro t ht
      rcases List.mem_cons.mp ht with rfl | ht
      · simp
      · exact ih t ht
    · simp only [hc, if_false]
      cases hs : splitScan [' '] 0 cs with
      | nil => exact absurd hs (splitScan_ne_nil _ _ _)
      | cons t ts =>
        rw [hs] at ih
        intro u hu
        rcases List.mem_cons.mp hu with rfl | hu
        · have ht := ih t (List.mem_cons_self _ _)
          intro hmem
          rcases List.mem_cons.mp hmem with h | h
          · exact hc h.symm
          · exact ht h
        · exact ih u (List.mem_cons_of_mem _ hu)

theorem splitScan_space_length (cs : List Char) :
    (splitScan [' '] 0 cs).length = cs.count ' ' + 1 := by
  induction cs with
  | nil => simp [splitScan]
  | cons c cs ih =>
    rw [splitScan_space_cons]
    by_cases hc : c = ' '
    · subst hc
      simp [ih]
    · have hc2 : ¬ (c == ' ') = true := by simpa using hc
      simp only [hc, if_false]
      cases hs : splitScan [' '] 0 cs with
      | nil => exact absurd hs (splitScan_ne_nil _ _ _)
      | cons t ts =>
        rw [hs] at ih
        simp only [List.length_cons] at ih ⊢
        rw [List.count_cons, if_neg hc2]
        omega

theorem stringsJoin_cons_head (c : Char) (t : List Char) (ts : List String) (sep : String) :
    (stringsJoin (String.mk (c :: t) :: ts) sep).data
      = c :: (stringsJoin (String.mk t :: ts) sep).data := by
  cases ts with
  | nil => simp [stringsJoin]
  | cons u us => simp [stringsJoin, String.data_append]

theorem stringsJoin_splitScan_space (cs : List Char) :
    (stringsJoin ((splitScan [' '] 0 cs).map String.mk) " ").data = cs := by
  induction cs with
  | nil => simp [splitScan, stringsJoin]
  | cons c cs ih =>
    rw [splitScan_space_cons]
    cases hs : splitScan [' '] 0 cs with
    | nil => exact absurd hs (splitScan_ne_nil _ _ _)
    | cons t ts =>
      rw [hs] at ih
      by_cases hc : c = ' '
      · subst hc
        simp only [if_true, List.map_cons, stringsJoin, String.data_append]
        simp only [List.map_cons] at ih
        rw [ih]
        rfl
      · simp only [hc, if_false, List.map_cons]
        simp only [List.map_cons] at ih
        rw [stringsJoin_cons_head, ih]

theorem stringsSplit_space (s : String) :
    stringsSplit s " " = (splitScan [' '] 0 s.data).map String.mk := by
  have h2 : ¬ ((" " : String).data = []) := by decide
  have h4 : (" " : String).data = [' '] := rfl
  unfold stringsSplit
  rw [if_neg h2, h4]

/-- Whatever `readline` returns is the Context literal built from the line. -/
theorem readline_ret_eq (env : Env) (self : Nat) (inp : String) (err : Option GoError)
    (m : Machine) (ctx : Context) (m' : Machine)
    (h : readline env self inp err m = .ret ctx m') : ctx = readlineCtx self inp := by
  unfold readline at h
  split at h
  · cases h
  · simp only [Result.andThen] at h
    split at h
    · injection h with h1 _
      exact h1.symm
    · cases h

/-- A read that succeeds on a shell with a line source returns the Context. -/
theorem readline_ok (env : Env) (self : Nat) (inp : String) (m : Machine) (rd : Instance)
    (hrd : m.world.shell.reader = some rd) :
    readline env self inp none m = .ret (readlineCtx self inp) (m.log (.readline inp none)) := by
  unfold readline
  rw [hrd]
  rfl

/-! ## Lemmas on the trace and on the shell across calls -/

theorem handlerCall_shell (env : Env) (f : HandlerFn) (ctx : Context) (m : Machine)
    (hkeep : ∀ id, f = .closure id → ∀ c w, (env.handler id c w).state.shell = w.shell) :
    (f.call env ctx m).state.world.shell = m.world.shell := by
  cases f with
  | nil => rfl
  | defaultHandler => rfl
  | closure id =>
    have h := hkeep id rfl ctx m.world
    simp only [HandlerFn.call]
    cases hr : env.handler id ctx m.world with
    | ret a w => rw [hr] at h; exact h
    | stop y w => rw [hr] at h; exact h

theorem interruptCall_shell (env : Env) (f : InterruptFn) (m : Machine)
    (hkeep : ∀ id, f = .closure id → ∀ w, (env.interrupt id w).state.shell = w.shell) :
    (f.call env m).state.world.shell = m.world.shell := by
  cases f with
  | nil => rfl
  | defaultInterrupt => rfl
  | closure id =>
    have h := hkeep id rfl m.world
    simp only [InterruptFn.call]
    cases hr : env.interrupt id m.world with
    | ret a w => rw [hr] at h; exact h
    | stop y w => rw [hr] at h; exact h

theorem handleRange_shell (env : Env) (ctx : Context) (m : Machine)
    (hkeep : ∀ id c w, (env.handler id c w).state.shell = w.shell) (cmds : List (Option Cmd)) :
    ∀ idx, (handleRange env ctx idx cmds m).state.world.shell = m.world.shell := by
  induction cmds with
  | nil =>
    intro idx
    simp only [handleRange]
    rw [handlerCall_shell env _ ctx _ (fun id _ => hkeep id)]
    rfl
  | cons command rest ih =>
    intro idx
    unfold handleRange
    split
    · rfl
    · split
      · rfl
      · split
        · rw [handlerCall_shell env _ ctx _ (fun id _ => hkeep id)]
          rfl
        · exact ih (idx + 1)

theorem handleRange_trace_extends (env : Env) (ctx : Context) (m : Machine)
    (cmds : List (Option Cmd)) :
    ∀ idx, m.trace <+: (handleRange env ctx idx cmds m).state.trace := by
  induction cmds with
  | nil =>
    intro idx
    simp only [handleRange]
    rw [handlerCall_trace, log_trace]
    exact List.prefix_append _ _
  | cons command rest ih =>
    intro idx
    unfold handleRange
    split
    · exact List.prefix_refl _
    · split
      · exact List.prefix_refl _
      · split
        · rw [handlerCall_trace, log_trace]
          exact List.prefix_append _ _
        · exact ih (idx + 1)

theorem readline_trace_extends (env : Env) (self : Nat) (inp : String) (err : Option GoError)
    (m : Machine) : m.trace <+: (readline env self inp err m).state.trace := by
  have base : m.trace <+: (m.log (.readline inp err)).trace := List.prefix_append _ _
  have hsw : ∀ sw : Result Machine Unit, (m.log (.readline inp err)).trace <+: sw.state.trace →
      m.trace <+: (sw.andThen fun _ m2 => .ret (readlineCtx self inp) m2).state.trace := by
    intro sw h
    cases sw <;> exact List.IsPrefix.trans base h
  unfold readline
  cases m.world.shell.reader with
  | none => exact List.prefix_refl _
  | some rd =>
    apply hsw
    cases err with
    | none => exact List.prefix_refl _
    | some e =>
      cases e with
      | ErrInterrupt =>
        show _ <+: (InterruptFn.call env _ _).state.trace
        rw [interruptCall_trace, log_trace]
        exact List.prefix_append _ _
      | EOF => exact List.prefix_refl _
      | other msg => exact List.prefix_refl _

theorem andThen_trace_extends {α β : Type} (t : List Event) (r : Result Machine α)
    (k : α → Machine → Result Machine β) (hr : t <+: r.state.trace)
    (hk : ∀ a st, st.trace <+: (k a st).state.trace) : t <+: (r.andThen k).state.trace := by
  cases r with
  | ret a st => exact List.IsPrefix.trans hr (hk a st)
  | stop y st => exact hr

theorem cycle_trace_extends (env : Env) (self : Nat) (inp : String) (err : Option GoError)
    (m : Machine) : m.trace <+: (cycle env self inp err m).state.trace :=
  andThen_trace_extends m.trace _ _ (readline_trace_extends env self inp err m)
    (fun ctx st => handleRange_trace_extends env ctx st _ 0)

theorem runLoop_trace_extends (env : Env) (self : Nat) (reads : List (String × Option GoError)) :
    ∀ m, m.trace <+: (runLoop env self reads m).state.trace := by
  induction reads with
  | nil => intro m; exact List.prefix_refl _
  | cons r rest ih =>
    intro m
    obtain ⟨inp, err⟩ := r
    unfold runLoop
    exact andThen_trace_extends m.trace _ _ (cycle_trace_extends env self inp err m)
      (fun _ st => ih st)

theorem splitScan_space_head (cs : List Char) :
    (splitScan [' '] 0 cs).head? = some (cs.takeWhile (fun c => c != ' ')) := by
  induction cs with
  | nil => rfl
  | cons c cs ih =>
    rw [splitScan_space_cons]
    by_cases hc : c = ' '
    · subst hc
      simp
    · simp only [hc, if_false]
      cases hs : splitScan [' '] 0 cs with
      | nil => exact absurd hs (splitScan_ne_nil _ _ _)
      | cons t ts =>
        rw [hs] at ih
        simp only [List.head?_cons, Option.some.injEq] at ih
        simp [List.takeWhile_cons, hc, ih]

theorem readlineCtx_Args_head (self : Nat) (inp : String) :
    ∃ tl, (readlineCtx self inp).Args = firstToken (readlineCtx self inp).Input :: tl := by
  have h : (readlineCtx self inp).Args
      = (splitScan [' '] 0 (readlineCtx self inp).Input.data).map String.mk :=
    stringsSplit_space _
  have hh := splitScan_space_head (readlineCtx self inp).Input.data
  cases hs : splitScan [' '] 0 (readlineCtx self inp).Input.data with
  | nil => exact absurd hs (splitScan_ne_nil _ _ _)
  | cons t ts =>
    rw [hs] at hh h
    simp only [List.head?_cons, Option.some.injEq] at hh
    refine ⟨ts.map String.mk, ?_⟩
    rw [h, List.map_cons, hh]
    rfl

/-- With a first argument, the loop of `handle` ends in the nil-entry panic or
in the call of a handler, never in the out-of-range panic. -/
theorem handleRange_with_first_arg (env : Env) (ctx : Context) (a0 : String) (tl : List String)
    (hargs : ctx.Args = a0 :: tl) (m : Machine) (cmds : List (Option Cmd)) :
    ∀ idx,
      handleRange env ctx idx cmds m
          = .stop (.goPanic "invalid memory address or nil pointer dereference") m ∨
      ∃ ev f, handleRange env ctx idx cmds m = HandlerFn.call env f ctx (m.log ev) := by
  induction cmds with
  | nil =>
    intro idx
    right
    exact ⟨.callHandler m.world.shell.handler ctx, m.world.shell.handler, by simp only [handleRange]⟩
  | cons command rest ih =>
    intro idx
    cases command with
    | none =>
      left
      simp only [handleRange, hargs]
    | some c =>
      by_cases hc : a0 = c.Name
      · right
        exact ⟨.callCommand idx c.Handler ctx, c.Handler, by simp only [handleRange, hargs, hc, if_true]⟩
      · have step : handleRange env ctx idx (some c :: rest) m
            = handleRange env ctx (idx + 1) rest m := by
          simp only [handleRange, hargs, hc, if_false]
        rw [step]
        exact ih (idx + 1)

theorem handle_no_index_panic (env : Env) (ctx : Context) (m : Machine)
    (hargs : ctx.Args ≠ []) :
    handle env ctx m ≠ .stop (.goPanic "index out of range [0] with length 0") m := by
  cases hA : ctx.Args with
  | nil => exact absurd hA hargs
  | cons a0 tl =>
    intro heq
    rcases handleRange_with_first_arg env ctx a0 tl hA m m.world.shell.Cmds 0 with h | ⟨ev, f, h⟩
    · unfold handle at heq
      rw [h] at heq
      injection heq with h1 _
      injection h1 with h2
      exact absurd h2 (by decide)
    · unfold handle at heq
      rw [h] at heq
      have ht : (HandlerFn.call env f ctx (m.log ev)).state.trace = m.trace := by
        rw [heq]
        rfl
      rw [handlerCall_trace, log_trace] at ht
      have hl := congrArg List.length ht
      rw [List.length_append, List.length_singleton] at hl
      omega

/-! ## Dispatch -/

/-- C1: for a Context with at least one argument, `handle` calls the handler of
the first registered command whose Name equals `ctx.Args[0]`, with that same
Context, exactly once; it calls no later command (whatever follows in the
registry, a command of the same Name included) and not the default handler:
the only event of the dispatch is the call of the command at the position of
that first match. -/
theorem handle_first_match (env : Env) (m : Machine) (ctx : Context) (a0 : String)
    (tl : List String) (pre : List Cmd) (c : Cmd) (post : List (Option Cmd))
    (hargs : ctx.Args = a0 :: tl)
    (hcmds : m.world.shell.Cmds = pre.map some ++ some c :: post)
    (hpre : ∀ x ∈ pre, x.Name ≠ a0) (hc : c.Name = a0) :
    handle env ctx m = c.Handler.call env ctx (m.log (.callCommand pre.length c.Handler ctx)) ∧
    eventsSince m (handle env ctx m).state = [.callCommand pre.length c.Handler ctx] := by
  have h := handle_at_first env m ctx a0 tl pre c post hargs hcmds hpre hc
  refine ⟨h, ?_⟩
  apply eventsSince_of_trace
  rw [h, handlerCall_trace, log_trace]

/-- Witness of C1: with two commands named `echo`, the input `echo hi` calls
the handler of the one registered first and nothing else. -/
theorem handle_first_match_witness :
    eventsSince (started twoEchoShell)
        (handle quietEnv ⟨"echo hi", ["echo", "hi"], 0⟩ (started twoEchoShell)).state
      = [.callCommand 0 (.closure 1) ⟨"echo hi", ["echo", "hi"], 0⟩] :=
  (handle_first_match quietEnv (started twoEchoShell) ⟨"echo hi", ["echo", "hi"], 0⟩ "echo" ["hi"]
    [] ⟨"echo", "first", .closure 1⟩ [some ⟨"echo", "second", .closure 2⟩]
    rfl rfl (by simp) rfl).2

/-- C2: for a Context with at least one argument and a registry of commands,
`handle` calls the default handler if and only if no registered command has
Name equal to `ctx.Args[0]`; it then calls the current default handler with
the same Context, exactly once, and no command handler.  Otherwise the only
call is that of the first command of that Name.  The first argument may be the
empty string. -/
theorem handle_default_iff_no_match (env : Env) (m : Machine) (ctx : Context) (a0 : String)
    (tl : List String) (cmds : List Cmd)
    (hargs : ctx.Args = a0 :: tl)
    (hcmds : m.world.shell.Cmds = cmds.map some) :
    ((∃ f c', Event.callHandler f c' ∈ eventsSince m (handle env ctx m).state)
        ↔ ∀ c ∈ cmds, c.Name ≠ a0) ∧
    ((∀ c ∈ cmds, c.Name ≠ a0) →
      handle env ctx m
        = m.world.shell.handler.call env ctx (m.log (.callHandler m.world.shell.handler ctx)) ∧
      eventsSince m (handle env ctx m).state = [.callHandler m.world.shell.handler ctx]) ∧
    ((∃ c ∈ cmds, c.Name = a0) →
      ∃ pre c post, cmds = pre ++ c :: post ∧ (∀ x ∈ pre, x.Name ≠ a0) ∧ c.Name = a0 ∧
        eventsSince m (handle env ctx m).state = [.callCommand pre.length c.Handler ctx]) := by
  have hnone : (∀ c ∈ cmds, c.Name ≠ a0) →
      handle env ctx m
        = m.world.shell.handler.call env ctx (m.log (.callHandler m.world.shell.handler ctx)) ∧
      eventsSince m (handle env ctx m).state = [.callHandler m.world.shell.handler ctx] := by
    intro hno
    have h := handle_at_none env m ctx a0 tl cmds hargs hcmds hno
    refine ⟨h, ?_⟩
    apply eventsSince_of_trace
    rw [h, handlerCall_trace, log_trace]
  have hsome : (∃ c ∈ cmds, c.Name = a0) →
      ∃ pre c post, cmds = pre ++ c :: post ∧ (∀ x ∈ pre, x.Name ≠ a0) ∧ c.Name = a0 ∧
        eventsSince m (handle env ctx m).state = [.callCommand pre.length c.Handler ctx] := by
    intro hex
    obtain ⟨pre, c, post, he, hp, hc⟩ := exists_first_named a0 cmds hex
    refine ⟨pre, c, post, he, hp, hc, ?_⟩
    have hcm : m.world.shell.Cmds = pre.map some ++ some c :: post.map some := by
      rw [hcmds, he]; simp
    have h := handle_at_first env m ctx a0 tl pre c (post.map some) hargs hcm hp hc
    apply eventsSince_of_trace
    rw [h, handlerCall_trace, log_trace]
  refine ⟨⟨?_, ?_⟩, hnone, hsome⟩
  · rintro ⟨f, c', hmem⟩
    by_contra hcon
    have hex : ∃ c ∈ cmds, c.Name = a0 := by
      by_contra hn
      exact hcon (fun c hc heq => hn ⟨c, hc, heq⟩)
    obtain ⟨pre, c, post, _, _, _, hev⟩ := hsome hex
    rw [hev] at hmem
    simp at hmem
  · intro hno
    exact ⟨m.world.shell.handler, ctx, by rw [(hnone hno).2]; simp⟩

/-- Witness of C2: with the single command `echo`, the empty input line, whose
first argument is the empty string, goes to the default handler. -/
theorem handle_default_iff_no_match_witness :
    eventsSince (started oneEchoShell) (handle quietEnv ⟨"", [""], 0⟩ (started oneEchoShell)).state
      = [.callHandler .defaultHandler ⟨"", [""], 0⟩] :=
  ((handle_default_iff_no_match quietEnv (started oneEchoShell) ⟨"", [""], 0⟩ "" []
    [⟨"echo", "print the arguments", .closure 1⟩] rfl rfl).2.1 (by decide)).2

/-! ## Context construction -/

/-- C3, counterexample: `Process()` with no arguments hands the default handler
a Context whose Args has no element. -/
theorem Process_no_args_empty_Args :
    eventsSince (started New) (Process quietEnv 0 [] (started New)).state
      = [.callHandler .defaultHandler ⟨"", [], 0⟩] ∧
    ¬ (1 ≤ (processCtx 0 []).Args.length) := by
  decide

/-- C3, amended: every Context built by the read path, for every raw line, the
empty line included, has at least one element in Args, and `readline` returns
no other Context; a Context built by `Process` has the given argument list as
its Args, unchanged, so it has at least one element exactly when at least one
argument is given. -/
theorem context_Args_nonempty_on_read_path :
    (∀ (self : Nat) (inp : String), 1 ≤ (readlineCtx self inp).Args.length) ∧
    (∀ (env : Env) (self : Nat) (inp : String) (err : Option GoError) (m : Machine),
      (readline env self inp err m).value? = none ∨
      (readline env self inp err m).value? = some (readlineCtx self inp)) ∧
    (∀ (self : Nat) (args : List String), (processCtx self args).Args = args) ∧
    (∀ (self : Nat) (args : List String),
      1 ≤ (processCtx self args).Args.length ↔ args ≠ []) := by
  refine ⟨?_, ?_, fun _ _ => rfl, ?_⟩
  · intro self inp
    show 1 ≤ (stringsSplit (stringsReplace inp "\n" "" (-1)) " ").length
    rw [stringsSplit_space, List.length_map, splitScan_space_length]
    omega
  · intro env self inp err m
    cases h : readline env self inp err m with
    | ret ctx m' =>
      right
      rw [readline_ret_eq env self inp err m ctx m' h]
      rfl
    | stop y m' => left; rfl
  · intro self args
    show 1 ≤ args.length ↔ args ≠ []
    cases args <;> simp

/-- C4: the Input of the Context that `readline` returns for a raw line is the
raw line with every `"\n"` removed and every other character kept, in order;
it contains no `"\n"`, and the raw line `"quit\n"` gives `"quit"`.  On a shell
whose line source exists, every read that succeeds does return such a Context. -/
theorem readline_Input_strips_newlines (env : Env) (self : Nat) (inp : String)
    (err : Option GoError) (m : Machine) (ctx : Context) (m' : Machine)
    (h : readline env self inp err m = .ret ctx m') :
    ctx.Input = stringsReplace inp "\n" "" (-1) ∧
    ctx.Input.data = inp.data.filter (fun c => c != '\n') ∧
    '\n' ∉ ctx.Input.data ∧
    (readlineCtx self "quit\n").Input = "quit" ∧
    (∀ (m0 : Machine) (rd : Instance), m0.world.shell.reader = some rd →
      readline env self inp none m0
        = .ret (readlineCtx self inp) (m0.log (.readline inp none))) := by
  rw [readline_ret_eq env self inp err m ctx m' h]
  refine ⟨rfl, stringsReplace_newline inp, ?_, ?_,
    fun m0 rd hrd => readline_ok env self inp m0 rd hrd⟩
  · show '\n' ∉ (stringsReplace inp "\n" "" (-1)).data
    rw [stringsReplace_newline]
    simp [List.mem_filter]
  · show stringsReplace "quit\n" "\n" "" (-1) = "quit"
    decide

/-- Witness of C4: reading `"quit\n"` returns a Context with Input `"quit"`. -/
theorem readline_Input_strips_newlines_witness :
    readline quietEnv 0 "quit\n" none (started New)
      = .ret ⟨"quit", ["quit"], 0⟩ ((started New).log (.readline "quit\n" none)) ∧
    (⟨"quit", ["quit"], 0⟩ : Context).Input.data = "quit\n".data.filter (fun c => c != '\n') :=
  ⟨by decide,
   (readline_Input_strips_newlines quietEnv 0 "quit\n" none (started New) ⟨"quit", ["quit"], 0⟩
      ((started New).log (.readline "quit\n" none)) (by decide)).2.1⟩

/-- C5: the Args of the Context that `readline` returns is the split of the
cleaned Input on the space character, with no collapsing and no trimming: no
element contains a space, there is one element more than there are spaces in
Input, and joining Args with single spaces gives Input back.  The line `a  b`
with two spaces gives `["a", "", "b"]`; a leading or trailing space gives a
leading or trailing empty element. -/
theorem readline_Args_split_on_space (env : Env) (self : Nat) (inp : String)
    (err : Option GoError) (m : Machine) (ctx : Context) (m' : Machine)
    (h : readline env self inp err m = .ret ctx m') :
    ctx.Args = stringsSplit ctx.Input " " ∧
    (∀ a ∈ ctx.Args, ' ' ∉ a.data) ∧
    ctx.Args.length = ctx.Input.data.count ' ' + 1 ∧
    stringsJoin ctx.Args " " = ctx.Input ∧
    (readlineCtx self "a  b").Args = ["a", "", "b"] ∧
    (readlineCtx self " a").Args = ["", "a"] ∧
    (readlineCtx self "a ").Args = ["a", ""] := by
  rw [readline_ret_eq env self inp err m ctx m' h]
  have ex1 : stringsSplit (stringsReplace "a  b" "\n" "" (-1)) " " = ["a", "", "b"] := by decide
  have ex2 : stringsSplit (stringsReplace " a" "\n" "" (-1)) " " = ["", "a"] := by decide
  have ex3 : stringsSplit (stringsReplace "a " "\n" "" (-1)) " " = ["a", ""] := by decide
  refine ⟨rfl, ?_, ?_, ?_, ex1, ex2, ex3⟩
  · intro a ha
    have ha2 : a ∈ (splitScan [' '] 0 (stringsReplace inp "\n" "" (-1)).data).map String.mk := by
      rw [← stringsSplit_space]; exact ha
    obtain ⟨t, ht, rfl⟩ := List.mem_map.mp ha2
    exact splitScan_space_no_space _ t ht
  · show (stringsSplit (stringsReplace inp "\n" "" (-1)) " ").length = _
    rw [stringsSplit_space, List.length_map, splitScan_space_length]
    rfl
  · show stringsJoin (stringsSplit (stringsReplace inp "\n" "" (-1)) " ") " " = _
    apply String.ext
    rw [stringsSplit_space, stringsJoin_splitScan_space]
    rfl

/-- Witness of C5: reading `a  b` returns the Args `["a", "", "b"]`. -/
theorem readline_Args_split_on_space_witness :
    readline quietEnv 0 "a  b" none (started New)
      = .ret ⟨"a  b", ["a", "", "b"], 0⟩ ((started New).log (.readline "a  b" none)) ∧
    stringsJoin ["a", "", "b"] " " = "a  b" :=
  ⟨by decide,
   (readline_Args_split_on_space quietEnv 0 "a  b" none (started New) ⟨"a  b", ["a", "", "b"], 0⟩
      ((started New).log (.readline "a  b" none)) (by decide)).2.2.2.1⟩

/-! ## Programmatic invocation -/

/-- C6: `Process(args...)` calls the current default handler, exactly once,
with the Context whose Input is `args` joined by single spaces, whose Args is
`args` unchanged and whose Shell is this shell; that call is the only event,
so no registered command's handler is called, whatever the registry holds. -/
theorem Process_calls_default_handler (env : Env) (self : Nat) (args : List String)
    (m : Machine) :
    Process env self args m
      = m.world.shell.handler.call env ⟨stringsJoin args " ", args, self⟩
          (m.log (.callHandler m.world.shell.handler ⟨stringsJoin args " ", args, self⟩)) ∧
    eventsSince m (Process env self args m).state
      = [.callHandler m.world.shell.handler ⟨stringsJoin args " ", args, self⟩] ∧
    (∀ (idx : Nat) (f : HandlerFn) (c : Context),
      Event.callCommand idx f c ∉ eventsSince m (Process env self args m).state) ∧
    (Process quietEnv 0 ["echo", "a b"] (started oneEchoShell)).state.trace
      = [.callHandler .defaultHandler ⟨"echo a b", ["echo", "a b"], 0⟩] := by
  have hev : eventsSince m (Process env self args m).state
      = [.callHandler m.world.shell.handler ⟨stringsJoin args " ", args, self⟩] := by
    apply eventsSince_of_trace
    unfold Process
    rw [handlerCall_trace, log_trace]
    rfl
  refine ⟨rfl, hev, ?_, by decide⟩
  intro idx f c hmem
  rw [hev] at hmem
  simp at hmem

/-! ## The read-dispatch cycle -/

/-- C7, the code at the failing input: with an interrupt handler that returns,
a read that reports the interrupt signal is followed by a dispatch.  After the
single call of the interrupt handler, `readline` builds a Context from the
interrupted line and `handle` dispatches it: the empty line goes to the default
handler, which prints its warning, and the interrupted line `echo hi` goes to
the command `echo`.  Only an interrupt handler that does not return, as the
built-in one, which ends the process, keeps the dispatch from happening. -/
theorem cycle_interrupt_returning_handler_dispatches :
    (cycle quietEnv 0 "" (some .ErrInterrupt)
        (started (SetInterruptHandler (.closure 0) New))).state.trace
      = [.readline "" (some .ErrInterrupt), .callInterrupt (.closure 0),
         .callHandler .defaultHandler ⟨"", [""], 0⟩] ∧
    (cycle quietEnv 0 "" (some .ErrInterrupt)
        (started (SetInterruptHandler (.closure 0) New))).state.world.stdout
      = "Default handler must be replaced!\n" ∧
    (cycle quietEnv 0 "echo hi" (some .ErrInterrupt)
        (started (SetInterruptHandler (.closure 0) oneEchoShell))).state.trace
      = [.readline "echo hi" (some .ErrInterrupt), .callInterrupt (.closure 0),
         .callCommand 0 (.closure 1) ⟨"echo hi", ["echo", "hi"], 0⟩] ∧
    cycle quietEnv 0 "echo hi" (some .ErrInterrupt) (started oneEchoShell)
      = .stop (.osExit 0)
          ((((started oneEchoShell).log (.readline "echo hi" (some .ErrInterrupt))).log
            (.callInterrupt .defaultInterrupt)).println "\rBye!") := by
  decide

/-- C8: in a cycle of `Run` whose read fails with an error other than the
interrupt signal, end of input included, `readline` ends in `log.Fatal` and
returns no Context; the read is the only event of the cycle, so no interrupt
handler, no command handler and no default handler is called, and the loop
performs no further read, whatever the line source would answer next. -/
theorem cycle_read_error_is_fatal (env : Env) (self : Nat) (inp : String) (e : GoError)
    (m : Machine) (rd : Instance) (rest : List (String × Option GoError))
    (he : e ≠ .ErrInterrupt) (hrd : m.world.shell.reader = some rd) :
    readline env self inp (some e) m = .stop (.fatal e) (m.log (.readline inp (some e))) ∧
    cycle env self inp (some e) m = .stop (.fatal e) (m.log (.readline inp (some e))) ∧
    eventsSince m (cycle env self inp (some e) m).state = [.readline inp (some e)] ∧
    runLoop env self ((inp, some e) :: rest) m
      = .stop (.fatal e) (m.log (.readline inp (some e))) := by
  have h1 : readline env self inp (some e) m
      = .stop (.fatal e) (m.log (.readline inp (some e))) := by
    unfold readline
    rw [hrd]
    cases e with
    | ErrInterrupt => exact absurd rfl he
    | EOF => rfl
    | other msg => rfl
  have h2 : cycle env self inp (some e) m
      = .stop (.fatal e) (m.log (.readline inp (some e))) := by
    unfold cycle
    rw [h1]
    rfl
  refine ⟨h1, h2, ?_, ?_⟩
  · rw [h2]
    exact eventsSince_of_trace _ _ _ rfl
  · unfold runLoop
    rw [h2]
    rfl

/-- Witness of C8: end of input on a started shell is fatal and the line that
the line source would answer next is never read. -/
theorem cycle_read_error_is_fatal_witness :
    GoError.EOF ≠ GoError.ErrInterrupt ∧
    runLoop quietEnv 0 [("", some .EOF), ("echo hi", none)] (started oneEchoShell)
      = .stop (.fatal .EOF) ((started oneEchoShell).log (.readline "" (some .EOF))) :=
  ⟨by decide,
   (cycle_read_error_is_fatal quietEnv 0 "" .EOF (started oneEchoShell)
      ⟨oneEchoShell.readlinecfg⟩ [("echo hi", none)] (by decide) rfl).2.2.2⟩

/-! ## Registry and handler slots -/

/-- C9: `AddCmd(cmd)`, for every `cmd`, leaves the registry equal to the old
registry followed by `cmd`: it is one entry longer, the old entries keep their
positions, and the default handler, the interrupt handler, the line-source
configuration and the line-source handle are unchanged. -/
theorem AddCmd_appends (cmd : Option Cmd) (s : Shell) :
    (AddCmd cmd s).Cmds = s.Cmds ++ [cmd] ∧
    (AddCmd cmd s).Cmds.length = s.Cmds.length + 1 ∧
    (AddCmd cmd s).Cmds.take s.Cmds.length = s.Cmds ∧
    (AddCmd cmd s).Cmds[s.Cmds.length]? = some cmd ∧
    (AddCmd cmd s).handler = s.handler ∧
    (AddCmd cmd s).interrupt = s.interrupt ∧
    (AddCmd cmd s).readlinecfg = s.readlinecfg ∧
    (AddCmd cmd s).reader = s.reader := by
  refine ⟨rfl, ?_, ?_, ?_, rfl, rfl, rfl, rfl⟩
  · simp [AddCmd]
  · simp [AddCmd]
  · simp [AddCmd]

/-- C10: setting a handler replaces the one before it.  After `SetHandler(f)`
then `SetHandler(f')` the shell is the one `SetHandler(f')` alone gives, and a
dispatch that matches no command, like every `Process` call, makes exactly one
call, that of `f'`.  After `SetInterruptHandler(g)` then
`SetInterruptHandler(g')`, `Interrupt()` makes exactly one call, that of `g'`.
`SetHandler` changes only the default handler and `SetInterruptHandler` only
the interrupt handler. -/
theorem set_handlers_replace (env : Env) (self : Nat) (m : Machine) (f f' : HandlerFn)
    (g g' : InterruptFn) (ctx : Context) (a0 : String) (tl : List String) (cmds : List Cmd)
    (args : List String)
    (hargs : ctx.Args = a0 :: tl)
    (hcmds : m.world.shell.Cmds = cmds.map some)
    (hno : ∀ c ∈ cmds, c.Name ≠ a0) :
    SetHandler f' (SetHandler f m.world.shell) = SetHandler f' m.world.shell ∧
    handle env ctx (m.setShell (SetHandler f' (SetHandler f m.world.shell)))
      = f'.call env ctx
          ((m.setShell (SetHandler f' (SetHandler f m.world.shell))).log (.callHandler f' ctx)) ∧
    eventsSince m (handle env ctx (m.setShell (SetHandler f' (SetHandler f m.world.shell)))).state
      = [.callHandler f' ctx] ∧
    Process env self args (m.setShell (SetHandler f' (SetHandler f m.world.shell)))
      = f'.call env (processCtx self args)
          ((m.setShell (SetHandler f' (SetHandler f m.world.shell))).log
            (.callHandler f' (processCtx self args))) ∧
    eventsSince m
        (Process env self args (m.setShell (SetHandler f' (SetHandler f m.world.shell)))).state
      = [.callHandler f' (processCtx self args)] ∧
    SetInterruptHandler g' (SetInterruptHandler g m.world.shell)
      = SetInterruptHandler g' m.world.shell ∧
    Interrupt env (m.setShell (SetInterruptHandler g' (SetInterruptHandler g m.world.shell)))
      = g'.call env
          ((m.setShell (SetInterruptHandler g' (SetInterruptHandler g m.world.shell))).log
            (.callInterrupt g')) ∧
    eventsSince m
        (Interrupt env
          (m.setShell (SetInterruptHandler g' (SetInterruptHandler g m.world.shell)))).state
      = [.callInterrupt g'] ∧
    ((SetHandler f m.world.shell).handler = f ∧
      (SetHandler f m.world.shell).interrupt = m.world.shell.interrupt ∧
      (SetHandler f m.world.shell).Cmds = m.world.shell.Cmds ∧
      (SetHandler f m.world.shell).readlinecfg = m.world.shell.readlinecfg ∧
      (SetHandler f m.world.shell).reader = m.world.shell.reader) ∧
    ((SetInterruptHandler g m.world.shell).interrupt = g ∧
      (SetInterruptHandler g m.world.shell).handler = m.world.shell.handler ∧
      (SetInterruptHandler g m.world.shell).Cmds = m.world.shell.Cmds ∧
      (SetInterruptHandler g m.world.shell).readlinecfg = m.world.shell.readlinecfg ∧
      (SetInterruptHandler g m.world.shell).reader = m.world.shell.reader) := by
  have hh : handle env ctx (m.setShell (SetHandler f' (SetHandler f m.world.shell)))
      = f'.call env ctx
          ((m.setShell (SetHandler f' (SetHandler f m.world.shell))).log (.callHandler f' ctx)) :=
    handle_at_none env (m.setShell (SetHandler f' (SetHandler f m.world.shell))) ctx a0 tl cmds
      hargs hcmds hno
  refine ⟨rfl, hh, ?_, rfl, ?_, rfl, rfl, ?_, ⟨rfl, rfl, rfl, rfl, rfl⟩, ⟨rfl, rfl, rfl, rfl, rfl⟩⟩
  · apply eventsSince_of_trace
    rw [hh, handlerCall_trace, log_trace]
    rfl
  · apply eventsSince_of_trace
    unfold Process
    rw [handlerCall_trace, log_trace]
    rfl
  · apply eventsSince_of_trace
    unfold Interrupt
    rw [interruptCall_trace, log_trace]
    rfl

/-- Witness of C10: on the shell with the command `echo`, after two
`SetHandler` calls the unmatched input `foo` calls the second handler only. -/
theorem set_handlers_replace_witness :
    eventsSince (started oneEchoShell)
        (handle quietEnv ⟨"foo", ["foo"], 0⟩
          ((started oneEchoShell).setShell
            (SetHandler (.closure 8) (SetHandler (.closure 7) (started oneEchoShell).world.shell)))).state
      = [.callHandler (.closure 8) ⟨"foo", ["foo"], 0⟩] :=
  (set_handlers_replace quietEnv 0 (started oneEchoShell) (.closure 7) (.closure 8)
    (.closure 5) (.closure 6) ⟨"foo", ["foo"], 0⟩ "foo" []
    [⟨"echo", "print the arguments", .closure 1⟩] ["a", "b"] rfl rfl (by decide)).2.2.1

/-! ## Repeated invocation -/

/-- C11: when the default handler does not modify the shell, two calls
`Process(args...)` in a row, the first of which returns, call the default
handler exactly twice, both times the same handler with the same Context
(same Input, same Args), and the shell, its command registry included, is after
the two calls what it was before them. -/
theorem Process_twice_same_context (env : Env) (self : Nat) (args : List String)
    (m m1 : Machine)
    (hkeep : ∀ id, m.world.shell.handler = .closure id →
      ∀ c w, (env.handler id c w).state.shell = w.shell)
    (hret : Process env self args m = .ret () m1) :
    processTwice env self args m = Process env self args m1 ∧
    eventsSince m m1 = [.callHandler m.world.shell.handler (processCtx self args)] ∧
    eventsSince m1 (Process env self args m1).state
      = [.callHandler m.world.shell.handler (processCtx self args)] ∧
    eventsSince m (processTwice env self args m).state
      = [.callHandler m.world.shell.handler (processCtx self args),
         .callHandler m.world.shell.handler (processCtx self args)] ∧
    m1.world.shell = m.world.shell ∧
    (processTwice env self args m).state.world.shell = m.world.shell ∧
    (processTwice env self args m).state.world.shell.Cmds = m.world.shell.Cmds := by
  have hst : (Process env self args m).state = m1 := by rw [hret]; rfl
  have ht1 : m1.trace = m.trace ++ [.callHandler m.world.shell.handler (processCtx self args)] := by
    rw [← hst]
    unfold Process
    rw [handlerCall_trace, log_trace]
  have hs1 : m1.world.shell = m.world.shell := by
    rw [← hst]
    unfold Process
    rw [handlerCall_shell env _ _ _ hkeep]
    rfl
  have htw : processTwice env self args m = Process env self args m1 := by
    unfold processTwice
    rw [hret]
    rfl
  have ht2 : (Process env self args m1).state.trace
      = m1.trace ++ [.callHandler m.world.shell.handler (processCtx self args)] := by
    unfold Process
    rw [handlerCall_trace, log_trace, hs1]
  have hs2 : (Process env self args m1).state.world.shell = m.world.shell := by
    unfold Process
    rw [handlerCall_shell env _ _ _ (by rw [hs1]; exact hkeep)]
    exact hs1
  refine ⟨htw, eventsSince_of_trace _ _ _ ht1, eventsSince_of_trace _ _ _ ht2, ?_, hs1, ?_, ?_⟩
  · apply eventsSince_of_trace
    rw [htw, ht2, ht1, List.append_assoc]
    rfl
  · rw [htw]; exact hs2
  · rw [htw, hs2]

/-- Witness of C11: `Process("a", "b")` twice on the shell with the command
`echo` calls the placeholder handler twice with the same Context. -/
theorem Process_twice_same_context_witness :
    eventsSince (started oneEchoShell)
        (processTwice quietEnv 0 ["a", "b"] (started oneEchoShell)).state
      = [.callHandler .defaultHandler ⟨"a b", ["a", "b"], 0⟩,
         .callHandler .defaultHandler ⟨"a b", ["a", "b"], 0⟩] :=
  (Process_twice_same_context quietEnv 0 ["a", "b"] (started oneEchoShell)
    (((started oneEchoShell).log (.callHandler .defaultHandler ⟨"a b", ["a", "b"], 0⟩)).println
      "Default handler must be replaced!")
    (fun id h => by cases h) (by decide)).2.2.2.1

/-! ## Configuration -/

/-- The first thing `Run` does is to create the line source from the
configuration the shell holds at that moment. -/
theorem Run_first_event (env : Env) (self : Nat) (reads : List (String × Option GoError))
    (m : Machine) :
    (eventsSince m (Run env self reads m).state).head? = some (.newEx m.world.shell.readlinecfg) := by
  unfold Run
  simp only []
  split
  · rw [eventsSince_of_trace m _ [.newEx m.world.shell.readlinecfg] rfl]
    rfl
  · obtain ⟨t, ht⟩ := runLoop_trace_extends env self reads
      ((m.log (.newEx m.world.shell.readlinecfg)).setShell
        { (m.log (.newEx m.world.shell.readlinecfg)).world.shell with
          reader := some ⟨m.world.shell.readlinecfg⟩ })
    rw [eventsSince_of_trace m _ (.newEx m.world.shell.readlinecfg :: t)]
    · rfl
    · rw [← ht]
      show (m.trace ++ [Event.newEx m.world.shell.readlinecfg]) ++ t = _
      simp

/-- C12: after `SetPrompt(p)` the configuration that `Run` hands to the line
source, as its first step, has Prompt `p`; of two `SetPrompt` calls the last
one wins.  `SetPrompt` changes nothing but the Prompt: the history-file path,
the two display strings, the search-fold flag, the registry, both handlers and
the line-source handle stay.  `SetHistoryFile(p)` changes nothing but the
history-file path. -/
theorem SetPrompt_reaches_line_source (env : Env) (self : Nat)
    (reads : List (String × Option GoError)) (m : Machine) (p q : String) :
    (eventsSince m (Run env self reads (m.setShell (SetPrompt p m.world.shell))).state).head?
      = some (.newEx { m.world.shell.readlinecfg with Prompt := p }) ∧
    (SetPrompt p m.world.shell).readlinecfg.Prompt = p ∧
    SetPrompt p (SetPrompt q m.world.shell) = SetPrompt p m.world.shell ∧
    ((SetPrompt p m.world.shell).readlinecfg.HistoryFile = m.world.shell.readlinecfg.HistoryFile ∧
      (SetPrompt p m.world.shell).readlinecfg.InterruptPrompt
        = m.world.shell.readlinecfg.InterruptPrompt ∧
      (SetPrompt p m.world.shell).readlinecfg.EOFPrompt = m.world.shell.readlinecfg.EOFPrompt ∧
      (SetPrompt p m.world.shell).readlinecfg.HistorySearchFold
        = m.world.shell.readlinecfg.HistorySearchFold ∧
      (SetPrompt p m.world.shell).Cmds = m.world.shell.Cmds ∧
      (SetPrompt p m.world.shell).handler = m.world.shell.handler ∧
      (SetPrompt p m.world.shell).interrupt = m.world.shell.interrupt ∧
      (SetPrompt p m.world.shell).reader = m.world.shell.reader) ∧
    ((SetHistoryFile p m.world.shell).readlinecfg.HistoryFile = p ∧
      (SetHistoryFile p m.world.shell).readlinecfg.Prompt = m.world.shell.readlinecfg.Prompt ∧
      (SetHistoryFile p m.world.shell).readlinecfg.InterruptPrompt
        = m.world.shell.readlinecfg.InterruptPrompt ∧
      (SetHistoryFile p m.world.shell).readlinecfg.EOFPrompt
        = m.world.shell.readlinecfg.EOFPrompt ∧
      (SetHistoryFile p m.world.shell).readlinecfg.HistorySearchFold
        = m.world.shell.readlinecfg.HistorySearchFold ∧
      (SetHistoryFile p m.world.shell).Cmds = m.world.shell.Cmds ∧
      (SetHistoryFile p m.world.shell).handler = m.world.shell.handler ∧
      (SetHistoryFile p m.world.shell).interrupt = m.world.shell.interrupt ∧
      (SetHistoryFile p m.world.shell).reader = m.world.shell.reader) := by
  refine ⟨?_, rfl, rfl, ⟨rfl, rfl, rfl, rfl, rfl, rfl, rfl, rfl⟩,
    ⟨rfl, rfl, rfl, rfl, rfl, rfl, rfl, rfl, rfl⟩⟩
  exact Run_first_event env self reads (m.setShell (SetPrompt p m.world.shell))

/-- C13: `SetHomeHistoryFile(p)` leaves the shell in the state that
`SetHistoryFile(h + "/" + p)` gives, `h` being the directory `userHomeDir`
resolves for the platform and the environment; no field differs. -/
theorem SetHomeHistoryFile_eq_SetHistoryFile (goos : String) (getenv : String → String)
    (p : String) (s : Shell) :
    SetHomeHistoryFile goos getenv p s = SetHistoryFile (userHomeDir goos getenv ++ "/" ++ p) s ∧
    (SetHomeHistoryFile goos getenv p s).readlinecfg.HistoryFile
      = userHomeDir goos getenv ++ "/" ++ p :=
  ⟨rfl, rfl⟩

/-- C14, counterexample: on linux with no variable set the home directory
resolves to the empty string, and `SetHomeHistoryFile(".history")` stores the
path `/.history`, which is not the empty path; with `p` empty it stores `/`. -/
theorem SetHomeHistoryFile_empty_home_not_empty_path :
    userHomeDir "linux" noEnvVars = "" ∧
    (SetHomeHistoryFile "linux" noEnvVars ".history" New).readlinecfg.HistoryFile = "/.history" ∧
    (SetHomeHistoryFile "linux" noEnvVars ".history" New).readlinecfg.HistoryFile ≠ "" ∧
    (SetHomeHistoryFile "linux" noEnvVars "" New).readlinecfg.HistoryFile = "/" := by
  decide

/-- C14, amended: when the home directory resolves to the empty string,
`SetHomeHistoryFile(p)` raises no error and stores the path `"/" + p`, the
empty directory used as it is in front of the separator; the stored path is
never the empty path. -/
theorem SetHomeHistoryFile_empty_home (goos : String) (getenv : String → String) (p : String)
    (s : Shell) (hhome : userHomeDir goos getenv = "") :
    (SetHomeHistoryFile goos getenv p s).readlinecfg.HistoryFile = "/" ++ p ∧
    (SetHomeHistoryFile goos getenv p s).readlinecfg.HistoryFile ≠ "" ∧
    SetHomeHistoryFile goos getenv p s = SetHistoryFile ("/" ++ p) s := by
  have h1 : userHomeDir goos getenv ++ "/" ++ p = "/" ++ p := by
    rw [hhome]
    apply String.ext
    simp [String.data_append]
  have h2 : (SetHomeHistoryFile goos getenv p s).readlinecfg.HistoryFile = "/" ++ p := h1
  refine ⟨h2, ?_, ?_⟩
  · rw [h2]
    intro h
    have hd := congrArg String.data h
    simp [String.data_append] at hd
  · show SetHistoryFile (userHomeDir goos getenv ++ "/" ++ p) s = _
    rw [h1]

/-- Witness of C14, amended: on windows with no variable set,
`SetHomeHistoryFile("hist")` stores `/hist`. -/
theorem SetHomeHistoryFile_empty_home_witness :
    userHomeDir "windows" noEnvVars = "" ∧
    (SetHomeHistoryFile "windows" noEnvVars "hist" New).readlinecfg.HistoryFile = "/" ++ "hist" :=
  ⟨by decide, (SetHomeHistoryFile_empty_home "windows" noEnvVars "hist" New (by decide)).1⟩

/-! ## The built-in default handler -/

/-- C15: the shell that `New()` builds has an empty registry and the built-in
placeholder as default handler.  As long as neither is changed, every dispatch
and every `Process` call makes one call, of the placeholder, which returns
after writing the line `Default handler must be replaced!` to standard output
and changes nothing else; what it writes does not depend on the Context. -/
theorem fresh_shell_runs_placeholder (env : Env) (self : Nat) (m : Machine) (ctx : Context)
    (args : List String)
    (hh : m.world.shell.handler = New.handler) (hc : m.world.shell.Cmds = New.Cmds) :
    New.Cmds = [] ∧ New.handler = .defaultHandler ∧
    handle env ctx m
      = .ret () ((m.log (.callHandler .defaultHandler ctx)).println
          "Default handler must be replaced!") ∧
    Process env self args m
      = .ret () ((m.log (.callHandler .defaultHandler (processCtx self args))).println
          "Default handler must be replaced!") ∧
    (handle env ctx m).state.world.stdout
      = m.world.stdout ++ "Default handler must be replaced!" ++ "\n" ∧
    (Process env self args m).state.world.stdout
      = m.world.stdout ++ "Default handler must be replaced!" ++ "\n" ∧
    (handle env ctx m).state.world.shell = m.world.shell ∧
    (Process env self args m).state.world.shell = m.world.shell := by
  have hh2 : m.world.shell.handler = .defaultHandler := hh
  have hc2 : m.world.shell.Cmds = [] := hc
  have e1 : handle env ctx m
      = .ret () ((m.log (.callHandler .defaultHandler ctx)).println
          "Default handler must be replaced!") := by
    unfold handle
    rw [hc2]
    simp only [handleRange]
    rw [hh2]
    rfl
  have e2 : Process env self args m
      = .ret () ((m.log (.callHandler .defaultHandler (processCtx self args))).println
          "Default handler must be replaced!") := by
    unfold Process
    rw [hh2]
    rfl
  refine ⟨rfl, rfl, e1, e2, ?_, ?_, ?_, ?_⟩
  · rw [e1]; rfl
  · rw [e2]; rfl
  · rw [e1]; rfl
  · rw [e2]; rfl

/-- Witness of C15: on a fresh shell the input `foo` prints the warning. -/
theorem fresh_shell_runs_placeholder_witness :
    (handle quietEnv ⟨"foo", ["foo"], 0⟩ (started New)).state.world.stdout
      = "" ++ "Default handler must be replaced!" ++ "\n" :=
  (fresh_shell_runs_placeholder quietEnv 0 (started New) ⟨"foo", ["foo"], 0⟩ [] rfl rfl).2.2.2.2.1

/-! ## The read-dispatch cycle, on a read that succeeds -/

/-- C16: for a registry of commands and a raw line read with success, the
cycle of `Run` dispatches the Context of the line, whose Args is the full split
and whose first element is the first token of the cleaned Input.  It calls the
first registered command whose Name is that token, and the default handler
when there is none.  With the single command `echo`, the line
`echo hello world` calls it with Args `["echo", "hello", "world"]`, whose tail
joined by a space is `hello world`; the line ` echo hi`, with a leading space,
has the empty first argument and goes to the default handler. -/
theorem cycle_dispatches_on_first_token (env : Env) (self : Nat) (inp : String) (m : Machine)
    (rd : Instance) (cmds : List Cmd)
    (hrd : m.world.shell.reader = some rd)
    (hcmds : m.world.shell.Cmds = cmds.map some) :
    cycle env self inp none m = handle env (readlineCtx self inp) (m.log (.readline inp none)) ∧
    (readlineCtx self inp).Args = stringsSplit (readlineCtx self inp).Input " " ∧
    (readlineCtx self inp).Args.head? = some (firstToken (readlineCtx self inp).Input) ∧
    (∀ pre c post, cmds = pre ++ c :: post →
      (∀ x ∈ pre, x.Name ≠ firstToken (readlineCtx self inp).Input) →
      c.Name = firstToken (readlineCtx self inp).Input →
      eventsSince m (cycle env self inp none m).state
        = [.readline inp none, .callCommand pre.length c.Handler (readlineCtx self inp)]) ∧
    ((∀ x ∈ cmds, x.Name ≠ firstToken (readlineCtx self inp).Input) →
      eventsSince m (cycle env self inp none m).state
        = [.readline inp none, .callHandler m.world.shell.handler (readlineCtx self inp)]) ∧
    eventsSince (started oneEchoShell)
        (cycle quietEnv 0 "echo hello world" none (started oneEchoShell)).state
      = [.readline "echo hello world" none,
         .callCommand 0 (.closure 1) ⟨"echo hello world", ["echo", "hello", "world"], 0⟩] ∧
    stringsJoin (["echo", "hello", "world"].drop 1) " " = "hello world" ∧
    eventsSince (started oneEchoShell)
        (cycle quietEnv 0 " echo hi" none (started oneEchoShell)).state
      = [.readline " echo hi" none,
         .callHandler .defaultHandler ⟨" echo hi", ["", "echo", "hi"], 0⟩] := by
  have hcy : cycle env self inp none m
      = handle env (readlineCtx self inp) (m.log (.readline inp none)) := by
    unfold cycle
    rw [readline_ok env self inp m rd hrd]
    rfl
  obtain ⟨tl, hargs⟩ := readlineCtx_Args_head self inp
  refine ⟨hcy, rfl, by rw [hargs]; rfl, ?_, ?_, by decide, by decide, by decide⟩
  · intro pre c post he hpre hc
    have hcm : (m.log (.readline inp none)).world.shell.Cmds
        = pre.map some ++ some c :: post.map some := by
      show m.world.shell.Cmds = _
      rw [hcmds, he]
      simp
    have h := handle_at_first env (m.log (.readline inp none)) (readlineCtx self inp) _ tl pre c
      (post.map some) hargs hcm hpre hc
    apply eventsSince_of_trace
    rw [hcy, h, handlerCall_trace, log_trace, log_trace, List.append_assoc]
    rfl
  · intro hno
    have h := handle_at_none env (m.log (.readline inp none)) (readlineCtx self inp) _ tl cmds
      hargs hcmds hno
    apply eventsSince_of_trace
    rw [hcy, h, handlerCall_trace, log_trace, log_trace, List.append_assoc]
    rfl

/-- Witness of C16: the line `echo hello world` is handed to the command
`echo`. -/
theorem cycle_dispatches_on_first_token_witness :
    cycle quietEnv 0 "echo hello world" none (started oneEchoShell)
      = handle quietEnv (readlineCtx 0 "echo hello world")
          ((started oneEchoShell).log (.readline "echo hello world" none)) ∧
    firstToken (readlineCtx 0 "echo hello world").Input = "echo" :=
  ⟨(cycle_dispatches_on_first_token quietEnv 0 "echo hello world" (started oneEchoShell)
      ⟨oneEchoShell.readlinecfg⟩ [⟨"echo", "print the arguments", .closure 1⟩] rfl rfl).1,
   by decide⟩

/-! ## The registry over time -/

/-- C17: with handlers that do not modify the shell, every operation of the
core leaves the registry it found as a prefix of the registry it leaves.
`AddCmd` makes it one entry longer; the five other setters, `handle`,
`Process` and `Interrupt` leave it as it was, so no entry is ever removed,
moved or replaced. -/
theorem registry_only_grows (env : Env) (self : Nat) (m : Machine) (ctx : Context)
    (args : List String) (cmd : Option Cmd) (f : HandlerFn) (g : InterruptFn)
    (goos : String) (getenv : String → String) (p : String)
    (hkeepH : ∀ id c w, (env.handler id c w).state.shell = w.shell)
    (hkeepI : ∀ id w, (env.interrupt id w).state.shell = w.shell) :
    (m.world.shell.Cmds <+: (AddCmd cmd m.world.shell).Cmds ∧
      (AddCmd cmd m.world.shell).Cmds.length = m.world.shell.Cmds.length + 1) ∧
    (SetHandler f m.world.shell).Cmds = m.world.shell.Cmds ∧
    (SetInterruptHandler g m.world.shell).Cmds = m.world.shell.Cmds ∧
    (SetHomeHistoryFile goos getenv p m.world.shell).Cmds = m.world.shell.Cmds ∧
    (SetHistoryFile p m.world.shell).Cmds = m.world.shell.Cmds ∧
    (SetPrompt p m.world.shell).Cmds = m.world.shell.Cmds ∧
    (handle env ctx m).state.world.shell.Cmds = m.world.shell.Cmds ∧
    (Process env self args m).state.world.shell.Cmds = m.world.shell.Cmds ∧
    (Interrupt env m).state.world.shell.Cmds = m.world.shell.Cmds ∧
    (m.world.shell.Cmds <+: (handle env ctx m).state.world.shell.Cmds ∧
      m.world.shell.Cmds <+: (Process env self args m).state.world.shell.Cmds ∧
      m.world.shell.Cmds <+: (Interrupt env m).state.world.shell.Cmds) := by
  have h1 : (handle env ctx m).state.world.shell = m.world.shell :=
    handleRange_shell env ctx m hkeepH _ 0
  have h2 : (Process env self args m).state.world.shell = m.world.shell := by
    unfold Process
    rw [handlerCall_shell env _ _ _ (fun id _ => hkeepH id)]
    rfl
  have h3 : (Interrupt env m).state.world.shell = m.world.shell := by
    unfold Interrupt
    rw [interruptCall_shell env _ _ (fun id _ => hkeepI id)]
    rfl
  refine ⟨⟨List.prefix_append _ _, by simp [AddCmd]⟩, rfl, rfl, rfl, rfl, rfl, ?_, ?_, ?_, ?_, ?_, ?_⟩
  · rw [h1]
  · rw [h2]
  · rw [h3]
  · rw [h1]
  · rw [h2]
  · rw [h3]

/-- Witness of C17: dispatching `echo hi` on the shell with two commands leaves
the two commands in place. -/
theorem registry_only_grows_witness :
    (handle quietEnv ⟨"echo hi", ["echo", "hi"], 0⟩ (started twoEchoShell)).state.world.shell.Cmds
      = (started twoEchoShell).world.shell.Cmds :=
  (registry_only_grows quietEnv 0 (started twoEchoShell) ⟨"echo hi", ["echo", "hi"], 0⟩ []
    none .nil .nil "linux" noEnvVars "" (fun _ _ _ => rfl) (fun _ _ => rfl)).2.2.2.2.2.2.1

/-! ## Home-directory resolution -/

/-- C18: with the platform name and the environment as inputs, `userHomeDir`
gives, on `windows`, `HOMEDRIVE` followed by `HOMEPATH` when that is not empty
and `USERPROFILE` otherwise, whatever `HOME` holds; on `linux`,
`XDG_CONFIG_HOME` when not empty and `HOME` otherwise; on any other platform,
`HOME`.  The result is empty whenever the variables consulted for the platform
are all empty. -/
theorem userHomeDir_by_platform (goos : String) (getenv getenv2 : String → String) :
    userHomeDir "windows" getenv
      = (if getenv "HOMEDRIVE" ++ getenv "HOMEPATH" ≠ "" then
          getenv "HOMEDRIVE" ++ getenv "HOMEPATH"
        else getenv "USERPROFILE") ∧
    (getenv2 "HOMEDRIVE" = getenv "HOMEDRIVE" → getenv2 "HOMEPATH" = getenv "HOMEPATH" →
      getenv2 "USERPROFILE" = getenv "USERPROFILE" →
      userHomeDir "windows" getenv2 = userHomeDir "windows" getenv) ∧
    userHomeDir "linux" getenv
      = (if getenv "XDG_CONFIG_HOME" ≠ "" then getenv "XDG_CONFIG_HOME" else getenv "HOME") ∧
    (goos ≠ "windows" → goos ≠ "linux" → userHomeDir goos getenv = getenv "HOME") ∧
    (getenv "HOMEDRIVE" = "" → getenv "HOMEPATH" = "" → getenv "USERPROFILE" = "" →
      userHomeDir "windows" getenv = "") ∧
    (getenv "XDG_CONFIG_HOME" = "" → getenv "HOME" = "" → userHomeDir "linux" getenv = "") ∧
    (goos ≠ "windows" → goos ≠ "linux" → getenv "HOME" = "" → userHomeDir goos getenv = "") := by
  have hw : userHomeDir "windows" getenv
      = (if getenv "HOMEDRIVE" ++ getenv "HOMEPATH" ≠ "" then
          getenv "HOMEDRIVE" ++ getenv "HOMEPATH"
        else getenv "USERPROFILE") := by
    unfold userHomeDir
    rw [if_pos rfl]
    by_cases h : getenv "HOMEDRIVE" ++ getenv "HOMEPATH" = ""
    · simp only [h, if_true, ne_eq, not_true_eq_false, if_false]
    · simp only [h, if_false, ne_eq, not_false_eq_true, if_true]
  have hl : userHomeDir "linux" getenv
      = (if getenv "XDG_CONFIG_HOME" ≠ "" then getenv "XDG_CONFIG_HOME" else getenv "HOME") := by
    unfold userHomeDir
    rw [if_neg (by decide), if_pos rfl]
  have ho : goos ≠ "windows" → goos ≠ "linux" → userHomeDir goos getenv = getenv "HOME" := by
    intro h1 h2
    unfold userHomeDir
    rw [if_neg h1, if_neg h2]
  refine ⟨hw, ?_, hl, ho, ?_, ?_, ?_⟩
  · intro e1 e2 e3
    unfold userHomeDir
    rw [if_pos rfl, if_pos rfl, e1, e2, e3]
  · intro e1 e2 e3
    rw [hw, e1, e2, e3]
    decide
  · intro e1 e2
    rw [hl, e1, e2]
    decide
  · intro h1 h2 e
    rw [ho h1 h2, e]

/-! ## Index safety in the loop of `Run` -/

/-- C19: the Context that `readline` returns, for every raw line, has a
non-empty Args, so the `handle` that follows in the loop of `Run` does not end
in the out-of-range panic of `ctx.Args[0]`: it ends in the call of a handler,
or in the nil-entry panic when the registry holds a nil pointer.  On a shell
whose line source exists a read that succeeds does reach `handle`.  The
out-of-range panic takes an empty Args, together with a non-empty registry,
which only a Context not built by the read path can have.  The empty line and
lines of spaces or newlines only give a non-empty Args. -/
theorem handle_after_readline_in_range (env : Env) (self : Nat) (inp : String)
    (err : Option GoError) (m : Machine) (ctx : Context) (m1 : Machine)
    (h : readline env self inp err m = .ret ctx m1) :
    ctx.Args ≠ [] ∧
    handle env ctx m1 ≠ .stop (.goPanic "index out of range [0] with length 0") m1 ∧
    (handle env ctx m1 = .stop (.goPanic "invalid memory address or nil pointer dereference") m1 ∨
      ∃ ev f, handle env ctx m1 = HandlerFn.call env f ctx (m1.log ev)) ∧
    cycle env self inp err m = handle env ctx m1 ∧
    (∀ (m0 : Machine) (rd : Instance), m0.world.shell.reader = some rd →
      cycle env self inp none m0
        = handle env (readlineCtx self inp) (m0.log (.readline inp none))) ∧
    (∀ (c0 : Context) (m0 : Machine),
      handle env c0 m0 = .stop (.goPanic "index out of range [0] with length 0") m0 →
      c0.Args = []) ∧
    (∀ (c0 : Context) (m0 : Machine) (entry : Option Cmd) (rest : List (Option Cmd)),
      c0.Args = [] → m0.world.shell.Cmds = entry :: rest →
      handle env c0 m0 = .stop (.goPanic "index out of range [0] with length 0") m0) ∧
    ((readlineCtx self "").Args = [""] ∧
      (readlineCtx self "  ").Args = ["", "", ""] ∧
      (readlineCtx self "\n\n").Args = [""]) := by
  have hctx := readline_ret_eq env self inp err m ctx m1 h
  obtain ⟨tl, hargs⟩ := readlineCtx_Args_head self inp
  have hne : ctx.Args ≠ [] := by
    rw [hctx, hargs]
    exact List.cons_ne_nil _ _
  have ex1 : stringsSplit (stringsReplace "" "\n" "" (-1)) " " = [""] := by decide
  have ex2 : stringsSplit (stringsReplace "  " "\n" "" (-1)) " " = ["", "", ""] := by decide
  have ex3 : stringsSplit (stringsReplace "\n\n" "\n" "" (-1)) " " = [""] := by decide
  refine ⟨hne, handle_no_index_panic env ctx m1 hne, ?_, ?_, ?_, ?_, ?_, ⟨ex1, ex2, ex3⟩⟩
  · rw [hctx] at hne ⊢
    exact handleRange_with_first_arg env _ _ tl hargs m1 _ 0
  · unfold cycle
    rw [h]
    rfl
  · intro m0 rd hrd
    unfold cycle
    rw [readline_ok env self inp m0 rd hrd]
    rfl
  · intro c0 m0 hp
    by_contra hc
    exact handle_no_index_panic env c0 m0 hc hp
  · intro c0 m0 entry rest ha hc
    unfold handle
    rw [hc]
    simp only [handleRange, ha]

/-- Witness of C19: the empty line read on the shell with the command `echo`
gives the Args `[""]`, and the dispatch that follows is in range. -/
theorem handle_after_readline_in_range_witness :
    readline quietEnv 0 "" none (started oneEchoShell)
      = .ret ⟨"", [""], 0⟩ ((started oneEchoShell).log (.readline "" none)) ∧
    (⟨"", [""], 0⟩ : Context).Args ≠ [] :=
  ⟨by decide,
   (handle_after_readline_in_range quietEnv 0 "" none (started oneEchoShell) ⟨"", [""], 0⟩
      ((started oneEchoShell).log (.readline "" none)) (by decide)).1⟩

end Shella
